import Mathlib

/-!
Verification of the Smarto_Attend attendance pipeline (Smarto_Attend/app.py).

Times of day are modelled as seconds since midnight (`Nat`).  Timestamp
strings ("HH:MM:SS") are modelled as genuine `String`s, with an explicit
parser mirroring Python's `datetime.strptime(s, "%H:%M:%S")` (one or two
digits per field, fields separated by ':', hour 0-23, minute/second 0-59,
failure modelled as `none`) and explicit formatters mirroring
`str(timedelta)` (hour unpadded) and `strftime("%H:%M:%S")` (hour padded).
-/

namespace SmartoAttend

/-- Decimal digit character (callers only pass 0-9). -/
def digChar : Nat → Char
  | 0 => '0' | 1 => '1' | 2 => '2' | 3 => '3' | 4 => '4'
  | 5 => '5' | 6 => '6' | 7 => '7' | 8 => '8' | _ => '9'

/-- Value of a decimal digit character, `none` for non-digits. -/
def digitVal (c : Char) : Option Nat :=
  if 48 ≤ c.toNat ∧ c.toNat ≤ 57 then some (c.toNat - 48) else none

/-- Parse a 1- or 2-digit decimal field, as `strptime` `%H`/`%M`/`%S` does,
returning the value and the remaining characters. -/
def parseField : List Char → Option (Nat × List Char)
  | [] => none
  | c1 :: rest =>
    match digitVal c1 with
    | none => none
    | some d1 =>
      match rest with
      | [] => some (d1, [])
      | c2 :: rest2 =>
        match digitVal c2 with
        | some d2 => some (10 * d1 + d2, rest2)
        | none => some (d1, rest)

/-- Consume a ':' separator. -/
def expectColon : List Char → Option (List Char)
  | [] => none
  | c :: rest => if c = ':' then some rest else none

/-- `strptime(s, "%H:%M:%S")` on the character list: three numeric fields
separated by ':', hour ≤ 23, minute ≤ 59, second ≤ 59, nothing trailing;
result in seconds since midnight. -/
def parseHMSChars (l : List Char) : Option Nat :=
  match parseField l with
  | none => none
  | some (h, l1) =>
    match expectColon l1 with
    | none => none
    | some l2 =>
      match parseField l2 with
      | none => none
      | some (m, l3) =>
        match expectColon l3 with
        | none => none
        | some l4 =>
          match parseField l4 with
          | none => none
          | some (s, l5) =>
            if l5 = [] ∧ h ≤ 23 ∧ m ≤ 59 ∧ s ≤ 59
            then some (h * 3600 + m * 60 + s) else none

/-- `strptime(s, "%H:%M:%S")`, seconds since midnight or `none`. -/
def parseTimeHMS (s : String) : Option Nat :=
  parseHMSChars s.data

/-- Two-digit zero-padded decimal rendering (callers only pass 0-99). -/
def pad2Chars (n : Nat) : List Char :=
  [digChar (n / 10), digChar (n % 10)]

/-- Unpadded decimal rendering of Python `str(int)` (callers only pass 0-99). -/
def showNatChars (n : Nat) : List Char :=
  if n < 10 then [digChar n] else [digChar (n / 10), digChar (n % 10)]

/-- Python `str(datetime.timedelta(seconds = n))` for `0 ≤ n < 86400`:
unpadded hour, padded minutes and seconds (e.g. `"1:05:00"`). -/
def formatTimedelta (n : Nat) : String :=
  String.mk (showNatChars (n / 3600) ++ ':' :: (pad2Chars (n % 3600 / 60) ++ ':' :: pad2Chars (n % 60)))

/-- Python `str(timedelta)` for `-86400 < d < 86400`: negative deltas
render as `"-1 day, H:MM:SS"` of the complement. -/
def formatTimedeltaInt (d : Int) : String :=
  if 0 ≤ d then formatTimedelta d.toNat
  else "-1 day, " ++ formatTimedelta (d + 86400).toNat

/-- `strftime("%H:%M:%S")` of a time of day `n < 86400` seconds:
all fields two-digit zero-padded. -/
def formatHMS (n : Nat) : String :=
  String.mk (pad2Chars (n / 3600) ++ ':' :: (pad2Chars (n % 3600 / 60) ++ ':' :: pad2Chars (n % 60)))

/-- Python truthiness of an optional string: `None` and `""` are falsy. -/
def truthyStr : Option String → Option String
  | none => none
  | some s => if s = "" then none else some s

/-- Signed duration in seconds between parsed entry time `te` and exit time
`tx`, with the +24h wrap `app.py` applies when `exit_time < entry_time`
(`calculate_period_duration`, app.py lines 1846-1850). -/
def durationSeconds (te tx : Nat) : Int :=
  (if tx < te then (tx : Int) + 86400 else (tx : Int)) - (te : Int)

/-- `calculate_period_duration(entry_time_str, exit_time_str)` from app.py
lines 1836-1854: `"00:00:00"` when either argument is falsy or fails to
parse, otherwise `str(exit - entry)` with the +24h overnight wrap. -/
def calculate_period_duration (entry_time_str exit_time_str : Option String) : String :=
  match truthyStr entry_time_str, truthyStr exit_time_str with
  | some es, some xs =>
    match parseTimeHMS es, parseTimeHMS xs with
    | some te, some tx => formatTimedelta (durationSeconds te tx).toNat
    | _, _ => "00:00:00"
  | _, _ => "00:00:00"

/-- One entry of the persisted period configuration (app.py, periods.json).
`start_sec`/`end_sec` are the `start_time`/`end_time` strings parsed with
`%H:%M:%S`, in seconds since midnight. -/
structure Period where
  period_id : Nat
  period_name : String
  start_sec : Nat
  end_sec : Nat
  duration_minutes : Nat
  subject : String
  teacher : String
  is_break : Bool
  break_duration : Nat
  is_active : Bool
deriving DecidableEq, Repr

/-- `GRACE_PERIOD_MINUTES` (app.py line 44). -/
def GRACE_PERIOD_MINUTES : Nat := 5

/-- Grace-window start: `(combine(today, start) - timedelta(minutes=grace)).time()`,
which wraps modulo one day when the subtraction crosses midnight. -/
def graceStart (s : Nat) : Nat :=
  (s + 86400 - 60 * GRACE_PERIOD_MINUTES) % 86400

/-- Grace-window end: `(combine(today, end) + timedelta(minutes=grace)).time()`. -/
def graceEnd (e : Nat) : Nat :=
  (e + 60 * GRACE_PERIOD_MINUTES) % 86400

/-- The `grace_start <= now <= grace_end` test of `get_current_period`. -/
def inGraceWindow (now : Nat) (p : Period) : Bool :=
  decide (graceStart p.start_sec ≤ now) && decide (now ≤ graceEnd p.end_sec)

/-- `get_current_period()` (app.py lines 1787-1809) on the sorted period list:
scan in order, skip inactive periods, return the first period whose
grace-extended window contains `now`, else `None`. -/
def get_current_period (now : Nat) : List Period → Option Period
  | [] => none
  | p :: rest =>
    if p.is_active = false then get_current_period now rest
    else if inGraceWindow now p then some p
    else get_current_period now rest

/-- `get_period_by_id(period_id)` (app.py lines 1811-1818). -/
def get_period_by_id (pid : Nat) : List Period → Option Period
  | [] => none
  | p :: rest => if p.period_id = pid then some p else get_period_by_id pid rest

/-- Overlap test `add_period` runs against each stored period
(app.py lines 2107-2116): skip inactive, reject when
`start_dt < existing_end and end_dt > existing_start`. -/
def overlapsExisting (s e : Nat) (p : Period) : Bool :=
  p.is_active && decide (s < p.end_sec) && decide (p.start_sec < e)

/-- `max([p['period_id'] for p in periods], default=0)`. -/
def maxPeriodId (ps : List Period) : Nat :=
  ps.foldl (fun m p => max m p.period_id) 0

/-- `add_period` POST handler core (app.py lines 2079-2138), after the
`%H:%M` parse: returns the periods-file contents after the request together
with an accepted flag.  Validation failures redirect before `save_periods`,
so the stored list is returned unchanged with `false`. -/
def add_period (ps : List Period) (period_name : String) (s e : Nat)
    (subject teacher : String) (is_break : Bool) : List Period × Bool :=
  if e ≤ s then (ps, false)
  else if ps.any (overlapsExisting s e) then (ps, false)
  else
    let dur := (e - s) / 60
    (ps ++ [{ period_id := maxPeriodId ps + 1, period_name := period_name,
              start_sec := s, end_sec := e, duration_minutes := dur,
              subject := subject, teacher := teacher, is_break := is_break,
              break_duration := if is_break then dur else 0, is_active := true }],
     true)

/-- Overlap test `edit_period` runs (app.py lines 2179-2189): additionally
skip the period being edited. -/
def overlapsOther (pid : Nat) (s e : Nat) (p : Period) : Bool :=
  (p.period_id != pid) && p.is_active && decide (s < p.end_sec) && decide (p.start_sec < e)

/-- Replace the first period with the given id (the `for ... break` update
loop of `edit_period`, app.py lines 2192-2206). -/
def replacePeriod (pid : Nat) (np : Period) : List Period → List Period
  | [] => []
  | p :: rest => if p.period_id = pid then np :: rest else p :: replacePeriod pid np rest

/-- `edit_period` POST handler core (app.py lines 2142-2212), after the
`%H:%M` parse: periods-file contents after the request plus accepted flag. -/
def edit_period (ps : List Period) (pid : Nat) (period_name : String) (s e : Nat)
    (subject teacher : String) (is_break is_active : Bool) : List Period × Bool :=
  if (get_period_by_id pid ps).isNone then (ps, false)
  else if e ≤ s then (ps, false)
  else if ps.any (overlapsOther pid s e) then (ps, false)
  else
    let dur := (e - s) / 60
    let np : Period :=
      { period_id := pid, period_name := period_name,
        start_sec := s, end_sec := e, duration_minutes := dur,
        subject := subject, teacher := teacher, is_break := is_break,
        break_duration := if is_break then dur else 0, is_active := is_active }
    (replacePeriod pid np ps, true)

/-- The three scenario periods of the spec: 09:00-10:00, 10:00-10:10 break,
10:10-11:10, all active. -/
def scenP1 : Period :=
  { period_id := 1, period_name := "First", start_sec := 32400, end_sec := 36000,
    duration_minutes := 60, subject := "Math", teacher := "A",
    is_break := false, break_duration := 0, is_active := true }

def scenBreak : Period :=
  { period_id := 2, period_name := "Break", start_sec := 36000, end_sec := 36600,
    duration_minutes := 10, subject := "Break", teacher := "",
    is_break := true, break_duration := 10, is_active := true }

def scenP3 : Period :=
  { period_id := 3, period_name := "Second", start_sec := 36600, end_sec := 40200,
    duration_minutes := 60, subject := "Science", teacher := "B",
    is_break := false, break_duration := 0, is_active := true }

def scenarioPeriods : List Period := [scenP1, scenBreak, scenP3]

/-- `START_TIME` (app.py line 1487), 09:00:00 in seconds. -/
def START_TIME : Nat := 32400

/-- `END_TIME` (app.py line 1488), 17:00:00 in seconds. -/
def END_TIME : Nat := 61200

/-- `is_within_time_window()` (app.py lines 1490-1506).  The argument is the
wall-clock time `datetime.now().time()` the function reads; the source
returns `True` unconditionally (the strict `START_TIME <= now <= END_TIME`
check is commented out). -/
def is_within_time_window (_now : Nat) : Bool :=
  true

/-- One record of the simple (non-period) attendance ledger
`{roll_no: {entry, exit, duration}}`; a `none` field models an absent key. -/
structure SimpleRec where
  entry : Option String
  exit : Option String
  duration : Option String
deriving DecidableEq, Repr

/-- The `type_` argument of `log_attendance`. -/
inductive AttType
  | entry
  | exit
deriving DecidableEq, Repr

/-- Observable outcome of one `log_attendance` call: `skipped` when the
time-window guard returns early (nothing written), `failed` when an uncaught
exception aborts before `save_attendance`, `written d` when the ledger is
saved with contents `d`. -/
inductive LogResult
  | skipped
  | failed
  | written (d : List (String × SimpleRec))
deriving DecidableEq, Repr

/-- Association-list lookup for the simple ledger dict. -/
def lookupSR (roll : String) : List (String × SimpleRec) → Option SimpleRec
  | [] => none
  | (k, v) :: rest => if k = roll then some v else lookupSR roll rest

/-- Insert-or-replace for the simple ledger dict (Python dicts keep
insertion order; a fresh key is appended). -/
def setSR (roll : String) (r : SimpleRec) : List (String × SimpleRec) → List (String × SimpleRec)
  | [] => [(roll, r)]
  | (k, v) :: rest => if k = roll then (k, r) :: rest else (k, v) :: setSR roll r rest

/-- `log_attendance(roll_no, type_)` (app.py lines 1508-1531).  `now` is the
wall-clock time checked by the guard and `timestamp` the `"%H:%M:%S"` string
written.  Entry is only written when no entry key exists; exit always
overwrites and, when an entry exists, stores `str(t2 - t1)` (no +24h wrap
here); a `strptime` failure on a stored entry propagates, aborting the save. -/
def log_attendance (data : List (String × SimpleRec)) (roll : String)
    (type_ : AttType) (now : Nat) (timestamp : String) : LogResult :=
  if is_within_time_window now = false then LogResult.skipped
  else
    let rec0 := (lookupSR roll data).getD ⟨none, none, none⟩
    match type_ with
    | AttType.entry =>
      match rec0.entry with
      | none => LogResult.written (setSR roll { rec0 with entry := some timestamp } data)
      | some _ => LogResult.written (setSR roll rec0 data)
    | AttType.exit =>
      let r1 := { rec0 with exit := some timestamp }
      match rec0.entry with
      | none => LogResult.written (setSR roll r1 data)
      | some e =>
        match parseTimeHMS e, parseTimeHMS timestamp with
        | some t1, some t2 =>
          LogResult.written
            (setSR roll { r1 with duration := some (formatTimedeltaInt ((t2 : Int) - (t1 : Int))) } data)
        | _, _ => LogResult.failed

/-- One period record of the period-wise ledger
`{entry, exit, duration, present, attendance_percentage}` plus the
`counted` key `mark_period_attendance` adds (absent modelled as `false`). -/
structure PeriodRec where
  entry : Option String
  exit : Option String
  duration : String
  present : Bool
  attendance_percentage : ℚ
  counted : Bool
deriving DecidableEq, Repr

/-- The fresh period record initialised by `mark_period_attendance`
(app.py lines 1918-1925). -/
def defaultPeriodRec : PeriodRec :=
  { entry := none, exit := none, duration := "00:00:00", present := false,
    attendance_percentage := 0, counted := false }

/-- One student's day entry of the period-wise ledger
`{periods, total_present, total_absent, total_duration}`.
`mark_period_attendance` touches exactly one such entry (selected by
today's date and the roll number in the full nested dict). -/
structure StudentDay where
  periods : List (Nat × PeriodRec)
  total_present : Nat
  total_absent : Nat
  total_duration : String
deriving DecidableEq, Repr

/-- Association-list lookup on a student's `periods` dict. -/
def lookupRec (pid : Nat) : List (Nat × PeriodRec) → Option PeriodRec
  | [] => none
  | (k, v) :: rest => if k = pid then some v else lookupRec pid rest

/-- Insert-or-replace on a student's `periods` dict. -/
def setPeriod (pid : Nat) (pd : PeriodRec) : List (Nat × PeriodRec) → List (Nat × PeriodRec)
  | [] => [(pid, pd)]
  | (k, v) :: rest => if k = pid then (k, pd) :: rest else (k, v) :: setPeriod pid pd rest

/-- Python's `round(q, 2)` on the exact rational value: scale by 100 and
round half-to-even. -/
def roundHalfEven (q : ℚ) : ℤ :=
  let f := ⌊q⌋
  if q - f < 1/2 then f
  else if (1 : ℚ)/2 < q - f then f + 1
  else if f % 2 = 0 then f else f + 1

def round2 (q : ℚ) : ℚ :=
  (roundHalfEven (q * 100) : ℚ) / 100

/-- The entry-time branch of `mark_period_attendance` (app.py lines
1929-1937): unconditionally overwrite `entry`, set `present`, and bump
`total_present` the first time (guarded by the `counted` key).  Returns the
updated record and `total_present`. -/
def entryPhase (pd : PeriodRec) (tp : Nat) (entry_time : Option String) : PeriodRec × Nat :=
  match truthyStr entry_time with
  | none => (pd, tp)
  | some e =>
    let pd1 := { pd with entry := some e, present := true }
    if pd1.counted then (pd1, tp)
    else ({ pd1 with counted := true }, tp + 1)

/-- The attendance-percentage step (app.py lines 1960-1968): looked-up
period absent or a break leaves the record as is; a non-break period with
`duration_minutes = 0` raises `ZeroDivisionError` (modelled `none`). -/
def pctPhase (cfg : List Period) (pid : Nat) (d : Nat) (pd : PeriodRec) : Option PeriodRec :=
  match get_period_by_id pid cfg with
  | some p =>
    if p.is_break then some pd
    else if p.duration_minutes = 0 then none
    else some { pd with attendance_percentage :=
                  round2 (((d : ℚ) / ((p.duration_minutes : ℚ) * 60)) * 100) }
  | none => some pd

/-- The percentage step after a `ValueError` in the total-duration block:
`period_duration` was never assigned, so reaching the non-break percentage
computation raises `NameError` (modelled `none`). -/
def nameErrorPhase (cfg : List Period) (pid : Nat) (pd : PeriodRec) : Option PeriodRec :=
  match get_period_by_id pid cfg with
  | some p => if p.is_break then some pd else none
  | none => some pd

/-- Final state written by `save_period_attendance` for this student-day. -/
def exitSave (sd : StudentDay) (pid : Nat) (pd : PeriodRec) (tp : Nat) (total : String) :
    StudentDay :=
  { sd with periods := setPeriod pid pd sd.periods, total_present := tp,
            total_duration := total }

/-- `mark_period_attendance(roll_no, period_id, entry_time, exit_time)`
(app.py lines 1894-1973) acting on the student-day entry it mutates.
`none` models an uncaught exception, in which case `save_period_attendance`
is never reached and the stored ledger is unchanged.  The exit branch
overwrites `exit`, recomputes `duration` from the (possibly just-written)
entry, adds the whole recomputed duration onto `total_duration` (modulo 24h
via `strftime("%H:%M:%S")`), resetting the total to `"00:00:00"` when a
stored string fails `strptime`, then updates the percentage. -/
def mark_period_attendance (cfg : List Period) (sd : StudentDay) (pid : Nat)
    (entry_time exit_time : Option String) : Option StudentDay :=
  let pd0 := (lookupRec pid sd.periods).getD defaultPeriodRec
  let ep := entryPhase pd0 sd.total_present entry_time
  let pd1 := ep.1
  let tp := ep.2
  match truthyStr exit_time with
  | none => some (exitSave sd pid pd1 tp sd.total_duration)
  | some x =>
    let pd2 := { pd1 with exit := some x }
    match truthyStr pd2.entry with
    | none => some (exitSave sd pid pd2 tp sd.total_duration)
    | some _ =>
      let dur := calculate_period_duration pd2.entry (some x)
      let pd3 := { pd2 with duration := dur }
      match parseTimeHMS sd.total_duration, parseTimeHMS dur with
      | some tot, some d =>
        (pctPhase cfg pid d pd3).map
          (fun pdf => exitSave sd pid pdf tp (formatHMS ((tot + d) % 86400)))
      | _, _ =>
        (nameErrorPhase cfg pid pd3).map
          (fun pdf => exitSave sd pid pdf tp "00:00:00")

/-- Empty student-day ledger entry, used for concrete evaluations. -/
def c1Day0 : StudentDay :=
  { periods := [], total_present := 0, total_absent := 0, total_duration := "00:00:00" }

/-- `c1Day0` after `mark_period_attendance` with entry 09:00:00 in period 1. -/
def c1Day1 : StudentDay :=
  { periods := [(1, { entry := some "09:00:00", exit := none, duration := "00:00:00",
                      present := true, attendance_percentage := 0, counted := true })],
    total_present := 1, total_absent := 0, total_duration := "00:00:00" }

/-- Concrete period record with an entry at 09:00:00 and no exit yet. -/
def wExitRec : PeriodRec :=
  { entry := some "09:00:00", exit := none, duration := "00:00:00",
    present := true, attendance_percentage := 0, counted := true }

/-- Concrete student-day holding `wExitRec` in period 1. -/
def wExitDay : StudentDay :=
  { periods := [(1, wExitRec)], total_present := 1, total_absent := 0,
    total_duration := "00:00:00" }

/-- `wExitRec` after an exit at 10:00:00 (duration `str(timedelta)` = "1:00:00"). -/
def wExitRec1 : PeriodRec :=
  { entry := some "09:00:00", exit := some "10:00:00", duration := "1:00:00",
    present := true, attendance_percentage := 0, counted := true }

/-- `wExitDay` after one exit-marking call at 10:00:00 (empty period config). -/
def wExitDay1 : StudentDay :=
  { periods := [(1, wExitRec1)], total_present := 1, total_absent := 0,
    total_duration := "01:00:00" }

/-- `wExitDay1` after a second exit-marking call at 10:00:00: the whole
recomputed duration is added to the total again. -/
def wExitDay2 : StudentDay :=
  { periods := [(1, wExitRec1)], total_present := 1, total_absent := 0,
    total_duration := "02:00:00" }

/-- A fired line-crossing event. -/
inductive CrossEvent
  | entry
  | exit
deriving DecidableEq, Repr

/-- Direction swap between the two tracker revisions' conventions. -/
def swapEv : CrossEvent → CrossEvent
  | CrossEvent.entry => CrossEvent.exit
  | CrossEvent.exit => CrossEvent.entry

/-- One frame of the crossing logic of `generate_attendance_frames`
(app.py lines 1253-1264): Entry when `old_x < LINE_X and cx >= LINE_X`,
Exit when `old_x > LINE_X and cx <= LINE_X`, else nothing. -/
def crossingStep (lineX oldX cx : Nat) : Option CrossEvent :=
  if oldX < lineX ∧ lineX ≤ cx then some CrossEvent.entry
  else if lineX < oldX ∧ cx ≤ lineX then some CrossEvent.exit
  else none

/-- Crossing logic of `generate_enhanced_attendance_frames` (app.py lines
1442-1456): the mirrored convention, Entry when `old_x > LINE_X and x <=
LINE_X`, Exit when `old_x < LINE_X and x >= LINE_X`. -/
def crossingStepEnh (lineX oldX cx : Nat) : Option CrossEvent :=
  if lineX < oldX ∧ cx ≤ lineX then some CrossEvent.entry
  else if oldX < lineX ∧ lineX ≤ cx then some CrossEvent.exit
  else none

/-- Fold the per-frame crossing step over a position sequence: each frame
fires at most one event and the stored position is unconditionally updated
to the new position (`trackers[roll_str][0] = cx`, app.py line 1267). -/
def runCrossings (lineX : Nat) : Nat → List Nat → List CrossEvent
  | _, [] => []
  | prev, c :: rest =>
    match crossingStep lineX prev c with
    | some ev => ev :: runCrossings lineX c rest
    | none => runCrossings lineX c rest

def runCrossingsEnh (lineX : Nat) : Nat → List Nat → List CrossEvent
  | _, [] => []
  | prev, c :: rest =>
    match crossingStepEnh lineX prev c with
    | some ev => ev :: runCrossingsEnh lineX c rest
    | none => runCrossingsEnh lineX c rest

/-- Events fired for one identity over its per-frame tracked positions: the
first sighting only initialises the tracker (`trackers[roll_str] = [cx, cx,
current_time]`, no event), later frames run the crossing step against the
stored previous position. -/
def trackEvents (lineX : Nat) : List Nat → List CrossEvent
  | [] => []
  | c0 :: rest => runCrossings lineX c0 rest

def trackEventsEnh (lineX : Nat) : List Nat → List CrossEvent
  | [] => []
  | c0 :: rest => runCrossingsEnh lineX c0 rest

/-- `deque(maxlen=5).append(b)`: append, dropping from the left beyond 5. -/
def pushHit (buf : List Bool) (b : Bool) : List Bool :=
  let l := buf ++ [b]
  if 5 < l.length then l.drop (l.length - 5) else l

/-- The verification buffer of one identity after `k` recognition hits:
both pipelines append `True` on every hit (misses are not appended),
starting from an empty deque. -/
def afterHits : Nat → List Bool
  | 0 => []
  | k + 1 => pushHit (afterHits k) true

/-- Basic verification rule (app.py line 1236):
`len(buffer) == 5 and all(buffer)`. -/
def basicVerified (buf : List Bool) : Bool :=
  (buf.length == 5) && buf.all (fun b => b)

/-- Enhanced verification rule (app.py line 1414):
`len(buffer) >= 3 and sum(buffer[-3:]) >= 2`. -/
def enhancedVerified (buf : List Bool) : Bool :=
  decide (3 ≤ buf.length) && decide (2 ≤ (buf.drop (buf.length - 3)).countP (fun b => b))

/-- One per-period summary bucket of `get_daily_period_summary`
(app.py lines 2015-2024).  `absent` is an integer because the source
decrements it per present record without a floor. -/
structure PSummary where
  period_name : String
  subject : String
  teacher : String
  total_students : Nat
  present : Nat
  absent : Int
  attendance_percentage : ℚ
  average_duration : String
deriving DecidableEq, Repr

/-- Result of `get_daily_period_summary` (date string omitted). -/
structure DailySummary where
  total_students : Nat
  period_summary : List (Nat × PSummary)
  overall_attendance : ℚ
  total_present_all : Nat
  total_periods : Nat
deriving DecidableEq, Repr

def initPSummary (students : Nat) (p : Period) : PSummary :=
  { period_name := p.period_name, subject := p.subject, teacher := p.teacher,
    total_students := students, present := 0, absent := (students : Int),
    attendance_percentage := 0, average_duration := "00:00:00" }

/-- Summary initialisation loop (app.py lines 2009-2024): one bucket per
active non-break period. -/
def initSummary (students : Nat) (cfg : List Period) : List (Nat × PSummary) :=
  cfg.filterMap (fun p =>
    if p.is_active && !p.is_break then some (p.period_id, initPSummary students p)
    else none)

def hasKey (pid : Nat) (l : List (Nat × PSummary)) : Bool :=
  l.any (fun kv => kv.1 == pid)

/-- `period_summary[period_id]["present"] += 1; ["absent"] -= 1`. -/
def bumpPeriod (pid : Nat) : List (Nat × PSummary) → List (Nat × PSummary)
  | [] => []
  | (k, s) :: rest =>
    if k = pid then (k, { s with present := s.present + 1, absent := s.absent - 1 }) :: rest
    else (k, s) :: bumpPeriod pid rest

/-- Inner counting loop over one student's period records (app.py lines
2030-2039): count a record when its period id is an initialised bucket and
the record is marked present. -/
def countStudent : List (Nat × PSummary) × Nat → List (Nat × PeriodRec) →
    List (Nat × PSummary) × Nat
  | acc, [] => acc
  | (summ, tot), (pid, pd) :: rest =>
    if hasKey pid summ && pd.present then countStudent (bumpPeriod pid summ, tot + 1) rest
    else countStudent (summ, tot) rest

/-- Outer counting loop over the day's students. -/
def countAll : List (Nat × PSummary) × Nat → List (String × StudentDay) →
    List (Nat × PSummary) × Nat
  | acc, [] => acc
  | acc, (_, sdata) :: rest => countAll (countStudent acc sdata.periods) rest

/-- Percentage loop (app.py lines 2042-2048): per-bucket percentage only
when `total_students > 0`, else left at 0. -/
def finalizePercents (summ : List (Nat × PSummary)) : List (Nat × PSummary) :=
  summ.map (fun kv =>
    (kv.1,
     if 0 < kv.2.total_students then
       { kv.2 with
         attendance_percentage := round2 (((kv.2.present : ℚ) / (kv.2.total_students : ℚ)) * 100) }
     else kv.2))

/-- `get_daily_period_summary(date_str)` (app.py lines 1988-2063):
`students` is `len(students)`, `cfg` the period configuration, `dayData`
the ledger entry for the date (`none` when the date is absent, in which
case the early-return summary is produced).  `total_periods` counts one per
initialised bucket; `overall = total_present_all / (students ×
total_periods) × 100` guarded against a zero denominator. -/
def get_daily_period_summary (students : Nat) (cfg : List Period)
    (dayData : Option (List (String × StudentDay))) : DailySummary :=
  match dayData with
  | none =>
    { total_students := students, period_summary := [], overall_attendance := 0,
      total_present_all := 0, total_periods := 0 }
  | some dd =>
    let counted := countAll (initSummary students cfg, 0) dd
    let totalPeriods := counted.1.length
    let totalPossible := students * totalPeriods
    let overall :=
      if 0 < totalPossible then
        round2 (((counted.2 : ℚ) / (totalPossible : ℚ)) * 100)
      else 0
    { total_students := students, period_summary := finalizePercents counted.1,
      overall_attendance := overall, total_present_all := counted.2,
      total_periods := totalPeriods }

/-- Invariant used for C8: every bucket carries the day's student count and
a zero percentage (before the percentage loop runs). -/
def summInv (students : Nat) (l : List (Nat × PSummary)) : Prop :=
  ∀ kv ∈ l, kv.2.total_students = students ∧ kv.2.attendance_percentage = 0

-- ===================== theorems =====================

theorem digitVal_digChar (d : Nat) (hd : d ≤ 9) : digitVal (digChar d) = some d := by
  interval_cases d <;> decide

theorem digitVal_colon : digitVal ':' = none := by decide

theorem parseField_pad2 (n : Nat) (hn : n ≤ 99) (rest : List Char) :
    parseField (pad2Chars n ++ rest) = some (n, rest) := by
  have h1 : n / 10 ≤ 9 := by omega
  have h2 : n % 10 ≤ 9 := by omega
  simp only [pad2Chars, List.cons_append, List.nil_append, parseField,
    digitVal_digChar _ h1, digitVal_digChar _ h2, Option.some.injEq, Prod.mk.injEq]
  exact ⟨by omega, trivial⟩

theorem parseField_showNat (n : Nat) (hn : n ≤ 99) (rest : List Char) :
    parseField (showNatChars n ++ ':' :: rest) = some (n, ':' :: rest) := by
  by_cases h10 : n < 10
  · have h1 : n ≤ 9 := by omega
    simp only [showNatChars, if_pos h10, List.cons_append, List.nil_append, parseField,
      digitVal_digChar _ h1, digitVal_colon]
  · have : showNatChars n = pad2Chars n := by
      simp only [showNatChars, if_neg h10, pad2Chars]
    rw [this]
    exact parseField_pad2 n hn _

theorem expectColon_cons (rest : List Char) : expectColon (':' :: rest) = some rest := by
  simp [expectColon]

theorem parseHMSChars_assemble (h m s : Nat) (hh : h ≤ 23) (hm : m ≤ 59) (hs : s ≤ 59)
    (l : List Char) (hl : parseField l = some (h, ':' :: (pad2Chars m ++ ':' :: pad2Chars s))) :
    parseHMSChars l = some (h * 3600 + m * 60 + s) := by
  have hm99 : m ≤ 99 := by omega
  have hs99 : s ≤ 99 := by omega
  have hs' : parseField (pad2Chars s) = some (s, []) := by
    have := parseField_pad2 s hs99 []
    simpa using this
  simp only [parseHMSChars, hl, expectColon_cons, parseField_pad2 m hm99, hs']
  simp [hh, hm, hs]

theorem parseTimeHMS_formatHMS (n : Nat) (hn : n < 86400) :
    parseTimeHMS (formatHMS n) = some n := by
  have hh : n / 3600 ≤ 23 := by omega
  have hm : n % 3600 / 60 ≤ 59 := by omega
  have hs : n % 60 ≤ 59 := by omega
  have hdata : (formatHMS n).data
      = pad2Chars (n / 3600) ++ ':' :: (pad2Chars (n % 3600 / 60) ++ ':' :: pad2Chars (n % 60)) := rfl
  rw [parseTimeHMS, hdata]
  have := parseHMSChars_assemble (n / 3600) (n % 3600 / 60) (n % 60) hh hm hs _
    (parseField_pad2 (n / 3600) (by omega) _)
  rw [this]
  congr 1
  omega

theorem parseTimeHMS_formatTimedelta (n : Nat) (hn : n < 86400) :
    parseTimeHMS (formatTimedelta n) = some n := by
  have hh : n / 3600 ≤ 23 := by omega
  have hm : n % 3600 / 60 ≤ 59 := by omega
  have hs : n % 60 ≤ 59 := by omega
  have hdata : (formatTimedelta n).data
      = showNatChars (n / 3600) ++ ':' :: (pad2Chars (n % 3600 / 60) ++ ':' :: pad2Chars (n % 60)) := rfl
  rw [parseTimeHMS, hdata]
  have := parseHMSChars_assemble (n / 3600) (n % 3600 / 60) (n % 60) hh hm hs _
    (parseField_showNat (n / 3600) (by omega) _)
  rw [this]
  congr 1
  omega

theorem parseHMSChars_lt (l : List Char) (t : Nat) (h : parseHMSChars l = some t) :
    t < 86400 := by
  unfold parseHMSChars at h
  repeat' split at h
  any_goals simp_all
  all_goals omega

theorem parseTimeHMS_lt (s : String) (t : Nat) (h : parseTimeHMS s = some t) : t < 86400 :=
  parseHMSChars_lt _ _ h

theorem parseTimeHMS_empty : parseTimeHMS "" = none := by decide

theorem durationSeconds_nonneg (te tx : Nat) (hte : te < 86400) :
    0 ≤ durationSeconds te tx := by
  unfold durationSeconds
  split <;> omega

theorem durationSeconds_lt (te tx : Nat) (hte : te < 86400) (htx : tx < 86400) :
    durationSeconds te tx < 86400 := by
  unfold durationSeconds
  split <;> omega

/-- C6: for every pair of entry/exit timestamp strings, the duration computed
by `calculate_period_duration` is always ≥ 0 — when the exit clock value is
numerically earlier than the entry it wraps by +24h — and when either
timestamp is missing (falsy) or unparsable the result defaults to
`"00:00:00"` instead of failing. -/
theorem C6_duration_nonneg_and_defaults :
    (∀ es xs te tx, parseTimeHMS es = some te → parseTimeHMS xs = some tx →
        0 ≤ durationSeconds te tx ∧
        (tx < te → durationSeconds te tx = (tx : Int) + 86400 - (te : Int)) ∧
        calculate_period_duration (some es) (some xs)
          = formatTimedelta (durationSeconds te tx).toNat) ∧
    (∀ x, calculate_period_duration none x = "00:00:00") ∧
    (∀ e, calculate_period_duration e none = "00:00:00") ∧
    (∀ es xs, parseTimeHMS es = none →
        calculate_period_duration (some es) (some xs) = "00:00:00") ∧
    (∀ es xs, parseTimeHMS xs = none →
        calculate_period_duration (some es) (some xs) = "00:00:00") := by
  refine ⟨?_, ?_, ?_, ?_, ?_⟩
  · intro es xs te tx he hx
    have hne : es ≠ "" := by
      intro h; rw [h, parseTimeHMS_empty] at he; exact Option.noConfusion he
    have hnx : xs ≠ "" := by
      intro h; rw [h, parseTimeHMS_empty] at hx; exact Option.noConfusion hx
    have hte := parseTimeHMS_lt es te he
    refine ⟨durationSeconds_nonneg te tx hte, ?_, ?_⟩
    · intro hlt
      unfold durationSeconds
      rw [if_pos hlt]
    · simp only [calculate_period_duration, truthyStr, if_neg hne, if_neg hnx, he, hx]
  · intro x
    simp [calculate_period_duration, truthyStr]
  · intro e
    cases e with
    | none => simp [calculate_period_duration, truthyStr]
    | some s =>
      by_cases hs : s = "" <;> simp [calculate_period_duration, truthyStr, hs]
  · intro es xs he
    by_cases hne : es = ""
    · simp [calculate_period_duration, truthyStr, hne]
    · by_cases hnx : xs = ""
      · simp [calculate_period_duration, truthyStr, hne, hnx]
      · simp [calculate_period_duration, truthyStr, hne, hnx, he]
  · intro es xs hx
    by_cases hne : es = ""
    · simp [calculate_period_duration, truthyStr, hne]
    · by_cases hnx : xs = ""
      · simp [calculate_period_duration, truthyStr, hne, hnx]
      · simp [calculate_period_duration, truthyStr, hne, hnx, hx]

/-- Witness for C6 at a concrete overnight pair: entry 23:30:00, exit 00:15:00. -/
theorem C6_duration_witness :
    0 ≤ durationSeconds 84600 900 ∧
    (900 < 84600 → durationSeconds 84600 900 = (900 : Int) + 86400 - (84600 : Int)) ∧
    calculate_period_duration (some "23:30:00") (some "00:15:00")
      = formatTimedelta (durationSeconds 84600 900).toNat :=
  C6_duration_nonneg_and_defaults.1 "23:30:00" "00:15:00" 84600 900 (by decide) (by decide)

theorem get_current_period_mem (now : Nat) (ps : List Period) (p : Period)
    (h : get_current_period now ps = some p) :
    p ∈ ps ∧ p.is_active = true ∧ inGraceWindow now p = true := by
  induction ps with
  | nil => exact Option.noConfusion h
  | cons q rest ih =>
    unfold get_current_period at h
    by_cases hq : q.is_active = false
    · rw [if_pos hq] at h
      obtain ⟨h1, h2, h3⟩ := ih h
      exact ⟨List.mem_cons_of_mem _ h1, h2, h3⟩
    · rw [if_neg hq] at h
      by_cases hg : inGraceWindow now q = true
      · rw [if_pos hg] at h
        obtain rfl := Option.some.inj h
        exact ⟨List.mem_cons_self _ _, by simpa using hq, hg⟩
      · rw [if_neg hg] at h
        obtain ⟨h1, h2, h3⟩ := ih h
        exact ⟨List.mem_cons_of_mem _ h1, h2, h3⟩

theorem get_current_period_none (now : Nat) (ps : List Period)
    (h : get_current_period now ps = none) :
    ∀ p ∈ ps, p.is_active = true → inGraceWindow now p = false := by
  induction ps with
  | nil => intro p hp; exact absurd hp (List.not_mem_nil p)
  | cons q rest ih =>
    intro p hp hact
    unfold get_current_period at h
    by_cases hq : q.is_active = false
    · rcases List.mem_cons.mp hp with rfl | hmem
      · rw [hact] at hq; exact Bool.noConfusion hq
      · rw [if_pos hq] at h; exact ih h p hmem hact
    · rw [if_neg hq] at h
      by_cases hg : inGraceWindow now q = true
      · rw [if_pos hg] at h; exact Option.noConfusion h
      · rw [if_neg hg] at h
        rcases List.mem_cons.mp hp with rfl | hmem
        · exact Bool.eq_false_iff.mpr hg
        · exact ih h p hmem hact

/-- C2 (amended): with the scenario periods 09:00-10:00, 10:00-10:10 (break),
10:10-11:10 all active and grace = 5 minutes, `get_current_period` returns
the FIRST period both at 09:58 and at 10:03 (the two grace-extended windows
overlap at 10:03 and the scan returns the earliest-starting match, not the
break period), and none at 12:00; in general a returned period is an active
listed period whose [start − grace, end + grace] window contains the current
time, and none is returned only when no active period's window contains it. -/
theorem C2_current_period_amended :
    (get_current_period 35880 scenarioPeriods = some scenP1) ∧
    (get_current_period 36180 scenarioPeriods = some scenP1) ∧
    (get_current_period 43200 scenarioPeriods = none) ∧
    (∀ now ps p, get_current_period now ps = some p →
        p ∈ ps ∧ p.is_active = true ∧ inGraceWindow now p = true) ∧
    (∀ now ps, get_current_period now ps = none →
        ∀ p ∈ ps, p.is_active = true → inGraceWindow now p = false) :=
  ⟨by decide, by decide, by decide, get_current_period_mem, get_current_period_none⟩

/-- Witness for C2 at the 10:03 scenario input. -/
theorem C2_current_period_witness :
    scenP1 ∈ scenarioPeriods ∧ scenP1.is_active = true ∧ inGraceWindow 36180 scenP1 = true :=
  C2_current_period_amended.2.2.2.1 36180 scenarioPeriods scenP1 (by decide)

/-- C2 counterexample: at 10:03 (inside the break period 10:00-10:10 and
inside the first period's grace window) the code returns the first period,
period_id 1, not the break period, period_id 2. -/
theorem C2_counterexample :
    (get_current_period 36180 scenarioPeriods).map Period.period_id = some 1 ∧
    scenBreak.period_id = 2 ∧ scenBreak.is_break = true := by decide

/-- C7: a new or edited period whose [start, end) interval intersects an
active period's interval is rejected and the stored period list is returned
unchanged; acceptance holds exactly when no other active period overlaps, so
an adjacent period (end = other's start) is accepted and inactive periods
are ignored; the code's pairwise test `s < p.end ∧ p.start < e` coincides
with nonempty intersection of the half-open intervals. -/
theorem any_overlapsExisting (ps : List Period) (s e : Nat) :
    ps.any (overlapsExisting s e) = true ↔
      ∃ p ∈ ps, p.is_active = true ∧ s < p.end_sec ∧ p.start_sec < e := by
  simp [List.any_eq_true, overlapsExisting, Bool.and_eq_true, decide_eq_true_eq, and_assoc]

theorem any_overlapsOther (ps : List Period) (pid s e : Nat) :
    ps.any (overlapsOther pid s e) = true ↔
      ∃ p ∈ ps, (p.period_id = pid → False) ∧ p.is_active = true ∧
        s < p.end_sec ∧ p.start_sec < e := by
  simp [List.any_eq_true, overlapsOther, Bool.and_eq_true, decide_eq_true_eq,
    bne_iff_ne, ne_eq, and_assoc]

theorem add_period_snd (ps : List Period) (nm : String) (s e : Nat)
    (sub tch : String) (br : Bool) (hse : s < e) :
    (add_period ps nm s e sub tch br).2 = !(ps.any (overlapsExisting s e)) := by
  simp only [add_period, if_neg (not_le.mpr hse)]
  rcases Bool.eq_false_or_eq_true (ps.any (overlapsExisting s e)) with hov | hov <;>
    simp [hov]

theorem add_period_fst_reject (ps : List Period) (nm : String) (s e : Nat)
    (sub tch : String) (br : Bool) (hse : s < e)
    (hov : ps.any (overlapsExisting s e) = true) :
    (add_period ps nm s e sub tch br).1 = ps := by
  simp [add_period, not_le.mpr hse, hov]

theorem edit_period_snd (ps : List Period) (pid : Nat) (nm : String) (s e : Nat)
    (sub tch : String) (br act : Bool) (hse : s < e)
    (hsome : (get_period_by_id pid ps).isSome = true) :
    (edit_period ps pid nm s e sub tch br act).2 = !(ps.any (overlapsOther pid s e)) := by
  have hnone : ¬ (get_period_by_id pid ps).isNone = true := by
    rw [Option.isNone_iff_eq_none]
    exact Option.isSome_iff_ne_none.mp hsome
  simp only [edit_period, if_neg hnone, if_neg (not_le.mpr hse)]
  rcases Bool.eq_false_or_eq_true (ps.any (overlapsOther pid s e)) with hov | hov <;>
    simp [hov]

theorem edit_period_fst_reject (ps : List Period) (pid : Nat) (nm : String) (s e : Nat)
    (sub tch : String) (br act : Bool) (hse : s < e)
    (hov : ps.any (overlapsOther pid s e) = true) :
    (edit_period ps pid nm s e sub tch br act).1 = ps := by
  by_cases hnone : (get_period_by_id pid ps).isNone = true
  · simp [edit_period, hnone]
  · simp [edit_period, hnone, not_le.mpr hse, hov]

theorem C7_overlap_validation :
    (∀ ps nm s e sub tch br, s < e →
        (((add_period ps nm s e sub tch br).2 = false ↔
          ∃ p ∈ ps, p.is_active = true ∧ s < p.end_sec ∧ p.start_sec < e) ∧
        ((add_period ps nm s e sub tch br).2 = false →
          (add_period ps nm s e sub tch br).1 = ps))) ∧
    (∀ ps pid nm s e sub tch br act, s < e → (get_period_by_id pid ps).isSome = true →
        (((edit_period ps pid nm s e sub tch br act).2 = false ↔
          ∃ p ∈ ps, (p.period_id = pid → False) ∧ p.is_active = true ∧
            s < p.end_sec ∧ p.start_sec < e) ∧
        ((edit_period ps pid nm s e sub tch br act).2 = false →
          (edit_period ps pid nm s e sub tch br act).1 = ps))) ∧
    (∀ s e ps' pe' : Nat, s < e → ps' < pe' →
        ((s < pe' ∧ ps' < e) ↔ ∃ t, (s ≤ t ∧ t < e) ∧ (ps' ≤ t ∧ t < pe'))) := by
  refine ⟨?_, ?_, ?_⟩
  · intro ps nm s e sub tch br hse
    constructor
    · rw [add_period_snd ps nm s e sub tch br hse, Bool.not_eq_false']
      exact any_overlapsExisting ps s e
    · intro h
      rw [add_period_snd ps nm s e sub tch br hse, Bool.not_eq_false'] at h
      exact add_period_fst_reject ps nm s e sub tch br hse h
  · intro ps pid nm s e sub tch br act hse hsome
    constructor
    · rw [edit_period_snd ps pid nm s e sub tch br act hse hsome, Bool.not_eq_false']
      exact any_overlapsOther ps pid s e
    · intro h
      rw [edit_period_snd ps pid nm s e sub tch br act hse hsome, Bool.not_eq_false'] at h
      exact edit_period_fst_reject ps pid nm s e sub tch br act hse h
  · intro s e ps' pe' h1 h2
    constructor
    · rintro ⟨ha, hb⟩
      refine ⟨max s ps', ?_, ?_⟩ <;> omega
    · rintro ⟨t, ⟨ha, hb⟩, hc, hd⟩
      omega

/-- Witness for C7: adding 10:00-11:00 next to an active 09:00-10:00 period
(adjacent, end = start) is accepted and appends the new period; the overlap
test coincides with interval intersection at concrete bounds. -/
theorem C7_overlap_witness :
    (((add_period [scenP1] "Next" 36000 39600 "X" "Y" false).2 = false ↔
      ∃ p ∈ [scenP1], p.is_active = true ∧ 36000 < p.end_sec ∧ p.start_sec < 39600) ∧
     ((add_period [scenP1] "Next" 36000 39600 "X" "Y" false).2 = false →
      (add_period [scenP1] "Next" 36000 39600 "X" "Y" false).1 = [scenP1])) :=
  C7_overlap_validation.1 [scenP1] "Next" 36000 39600 "X" "Y" false (by decide)

theorem truthyStr_some_of_ne {s : String} (h : s ≠ "") : truthyStr (some s) = some s := by
  simp [truthyStr, h]

theorem entryPhase_none (pd : PeriodRec) (tp : Nat) : entryPhase pd tp none = (pd, tp) := rfl

theorem lookupRec_setPeriod (pid : Nat) (pd : PeriodRec) (l : List (Nat × PeriodRec)) :
    lookupRec pid (setPeriod pid pd l) = some pd := by
  induction l with
  | nil => simp [setPeriod, lookupRec]
  | cons kv rest ih =>
    by_cases hk : kv.1 = pid
    · simp [setPeriod, lookupRec, hk]
    · simp only [setPeriod, lookupRec, if_neg hk]
      exact ih

theorem lookupSR_setSR (roll : String) (r : SimpleRec) (l : List (String × SimpleRec)) :
    lookupSR roll (setSR roll r l) = some r := by
  induction l with
  | nil => simp [setSR, lookupSR]
  | cons kv rest ih =>
    by_cases hk : kv.1 = roll
    · simp [setSR, lookupSR, hk]
    · simp only [setSR, lookupSR, if_neg hk]
      exact ih

theorem setSR_self (roll : String) (r : SimpleRec) (l : List (String × SimpleRec))
    (h : lookupSR roll l = some r) : setSR roll r l = l := by
  induction l with
  | nil => exact Option.noConfusion h
  | cons kv rest ih =>
    by_cases hk : kv.1 = roll
    · simp only [lookupSR, if_pos hk] at h
      obtain rfl := Option.some.inj h
      cases kv with
      | mk k v => simp_all [setSR]
    · simp only [lookupSR, if_neg hk] at h
      cases kv with
      | mk k v =>
        simp only [setSR]
        rw [if_neg hk, ih h]

theorem pctPhase_fields (cfg : List Period) (pid : Nat) (d : Nat) (pd pdf : PeriodRec)
    (h : pctPhase cfg pid d pd = some pdf) :
    pdf.entry = pd.entry ∧ pdf.exit = pd.exit ∧ pdf.duration = pd.duration := by
  unfold pctPhase at h
  repeat' split at h
  all_goals first
    | exact Option.noConfusion h
    | (obtain rfl := Option.some.inj h; exact ⟨rfl, rfl, rfl⟩)

theorem nameErrorPhase_fields (cfg : List Period) (pid : Nat) (pd pdf : PeriodRec)
    (h : nameErrorPhase cfg pid pd = some pdf) :
    pdf.entry = pd.entry ∧ pdf.exit = pd.exit ∧ pdf.duration = pd.duration := by
  unfold nameErrorPhase at h
  repeat' split at h
  all_goals first
    | exact Option.noConfusion h
    | (obtain rfl := Option.some.inj h; exact ⟨rfl, rfl, rfl⟩)

/-- Full analysis of one exit-marking call on a record that already has a
non-empty entry: the saved record has the new exit, the unchanged entry and
the freshly recomputed duration, and — when the stored total and the
recomputed duration both parse — the day total is increased by the whole
recomputed duration, modulo 24h. -/
theorem mark_exit_analysis (cfg : List Period) (sd : StudentDay) (pid : Nat)
    (pd : PeriodRec) (e x : String) (sd' : StudentDay)
    (hrec : lookupRec pid sd.periods = some pd)
    (hentry : pd.entry = some e) (he : e ≠ "") (hx : x ≠ "")
    (hcall : mark_period_attendance cfg sd pid none (some x) = some sd') :
    (∃ pd', lookupRec pid sd'.periods = some pd' ∧
      pd'.exit = some x ∧ pd'.entry = some e ∧
      pd'.duration = calculate_period_duration (some e) (some x)) ∧
    (∀ tot d, parseTimeHMS sd.total_duration = some tot →
      parseTimeHMS (calculate_period_duration (some e) (some x)) = some d →
      sd'.total_duration = formatHMS ((tot + d) % 86400)) := by
  simp only [mark_period_attendance, hrec, Option.getD_some, entryPhase_none,
    truthyStr_some_of_ne hx, hentry, truthyStr_some_of_ne he] at hcall
  rcases h1 : parseTimeHMS sd.total_duration with _ | tot
  · rw [h1] at hcall
    rcases h2 : parseTimeHMS (calculate_period_duration (some e) (some x)) with _ | d
    · rw [h2] at hcall
      rw [Option.map_eq_some'] at hcall
      obtain ⟨pdf, hpdf, hsd⟩ := hcall
      obtain ⟨hfe, hfx, hfd⟩ := nameErrorPhase_fields cfg pid _ pdf hpdf
      subst hsd
      refine ⟨⟨pdf, lookupRec_setPeriod pid pdf sd.periods, by rw [hfx],
        by rw [hfe], by rw [hfd]⟩, ?_⟩
      intro tot d htot hd
      exact Option.noConfusion htot
    · rw [h2] at hcall
      rw [Option.map_eq_some'] at hcall
      obtain ⟨pdf, hpdf, hsd⟩ := hcall
      obtain ⟨hfe, hfx, hfd⟩ := nameErrorPhase_fields cfg pid _ pdf hpdf
      subst hsd
      refine ⟨⟨pdf, lookupRec_setPeriod pid pdf sd.periods, by rw [hfx],
        by rw [hfe], by rw [hfd]⟩, ?_⟩
      intro tot' d' htot hd
      exact Option.noConfusion htot
  · rw [h1] at hcall
    rcases h2 : parseTimeHMS (calculate_period_duration (some e) (some x)) with _ | d
    · rw [h2] at hcall
      rw [Option.map_eq_some'] at hcall
      obtain ⟨pdf, hpdf, hsd⟩ := hcall
      obtain ⟨hfe, hfx, hfd⟩ := nameErrorPhase_fields cfg pid _ pdf hpdf
      subst hsd
      refine ⟨⟨pdf, lookupRec_setPeriod pid pdf sd.periods, by rw [hfx],
        by rw [hfe], by rw [hfd]⟩, ?_⟩
      intro tot' d' htot hd
      exact Option.noConfusion hd
    · rw [h2] at hcall
      rw [Option.map_eq_some'] at hcall
      obtain ⟨pdf, hpdf, hsd⟩ := hcall
      obtain ⟨hfe, hfx, hfd⟩ := pctPhase_fields cfg pid d _ pdf hpdf
      subst hsd
      refine ⟨⟨pdf, lookupRec_setPeriod pid pdf sd.periods, by rw [hfx],
        by rw [hfe], by rw [hfd]⟩, ?_⟩
      intro tot' d' htot hd
      obtain rfl := Option.some.inj htot
      obtain rfl := Option.some.inj hd
      rfl

/-- C5: exit is write-latest — on a record with an existing entry, every
successful exit-marking call stores the new exit timestamp, leaves the entry
unchanged, and recomputes the stored duration as
`calculate_period_duration(entry, new_exit)`. -/
theorem C5_exit_write_latest (cfg : List Period) (sd : StudentDay) (pid : Nat)
    (pd : PeriodRec) (e x : String) (sd' : StudentDay)
    (hrec : lookupRec pid sd.periods = some pd)
    (hentry : pd.entry = some e) (he : e ≠ "") (hx : x ≠ "")
    (hcall : mark_period_attendance cfg sd pid none (some x) = some sd') :
    ∃ pd', lookupRec pid sd'.periods = some pd' ∧
      pd'.exit = some x ∧ pd'.entry = some e ∧
      pd'.duration = calculate_period_duration (some e) (some x) :=
  (mark_exit_analysis cfg sd pid pd e x sd' hrec hentry he hx hcall).1

/-- Witness for C5 on a concrete ledger record (entry 09:00:00, exit
10:00:00, empty period configuration). -/
theorem C5_exit_witness :
    ∃ pd', lookupRec 1 wExitDay1.periods = some pd' ∧
      pd'.exit = some "10:00:00" ∧ pd'.entry = some "09:00:00" ∧
      pd'.duration = calculate_period_duration (some "09:00:00") (some "10:00:00") :=
  C5_exit_write_latest [] wExitDay 1 wExitRec "09:00:00" "10:00:00" wExitDay1
    (by decide) (by decide) (by decide) (by decide) (by decide)

/-- C10: on every successful exit write with an existing entry, the day's
`total_duration` is increased (modulo 24h, the range of `"%H:%M:%S"`) by the
entire newly recomputed period duration, not by the delta from the stored
duration: two successive exit calls with the same timestamp add the same
recomputed duration twice while the stored per-period duration stays that
single recomputed value, so the total need not equal the sum of the stored
per-period durations. -/
theorem C10_total_duration_full_add (cfg : List Period) (sd : StudentDay) (pid : Nat)
    (pd : PeriodRec) (e x : String) (tot d : Nat) (sd' sd'' : StudentDay)
    (hrec : lookupRec pid sd.periods = some pd)
    (hentry : pd.entry = some e) (he : e ≠ "") (hx : x ≠ "")
    (htot : parseTimeHMS sd.total_duration = some tot)
    (hd : parseTimeHMS (calculate_period_duration (some e) (some x)) = some d)
    (hcall1 : mark_period_attendance cfg sd pid none (some x) = some sd')
    (hcall2 : mark_period_attendance cfg sd' pid none (some x) = some sd'') :
    sd'.total_duration = formatHMS ((tot + d) % 86400) ∧
    sd''.total_duration = formatHMS ((tot + d + d) % 86400) ∧
    ∃ pd'', lookupRec pid sd''.periods = some pd'' ∧
      pd''.duration = calculate_period_duration (some e) (some x) := by
  obtain ⟨⟨pd', hl', hx', he', hd'⟩, htot'⟩ :=
    mark_exit_analysis cfg sd pid pd e x sd' hrec hentry he hx hcall1
  have h1 : sd'.total_duration = formatHMS ((tot + d) % 86400) := htot' tot d htot hd
  obtain ⟨⟨pd'', hl'', hx'', he'', hd''⟩, htot''⟩ :=
    mark_exit_analysis cfg sd' pid pd' e x sd'' hl' he' he hx hcall2
  have hparse : parseTimeHMS sd'.total_duration = some ((tot + d) % 86400) := by
    rw [h1]
    exact parseTimeHMS_formatHMS _ (Nat.mod_lt _ (by omega))
  have h2 : sd''.total_duration = formatHMS (((tot + d) % 86400 + d) % 86400) :=
    htot'' ((tot + d) % 86400) d hparse hd
  refine ⟨h1, ?_, pd'', hl'', hd''⟩
  rw [h2]
  congr 1
  omega

/-- Witness for C10: two exits at 10:00:00 on an entry at 09:00:00 take the
day total from 00:00:00 to 01:00:00 and then to 02:00:00. -/
theorem C10_total_duration_witness :
    wExitDay1.total_duration = formatHMS ((0 + 3600) % 86400) ∧
    wExitDay2.total_duration = formatHMS ((0 + 3600 + 3600) % 86400) ∧
    ∃ pd'', lookupRec 1 wExitDay2.periods = some pd'' ∧
      pd''.duration = calculate_period_duration (some "09:00:00") (some "10:00:00") :=
  C10_total_duration_full_add [] wExitDay 1 wExitRec "09:00:00" "10:00:00" 0 3600
    wExitDay1 wExitDay2 (by decide) (by decide) (by decide) (by decide) (by decide)
    (by decide) (by decide) (by decide)

/-- C1 counterexample: the claim fails for `mark_period_attendance` — after a
first entry-marking call stores 09:00:00, a repeated entry-marking call with
09:05:00 overwrites the stored entry timestamp, which ends up 09:05:00, not
the first call's value 09:00:00. -/
theorem C1_counterexample :
    ((mark_period_attendance [] c1Day0 1 (some "09:00:00") none).bind
        (fun sd1 => mark_period_attendance [] sd1 1 (some "09:05:00") none)).map
      (fun sd2 => (lookupRec 1 sd2.periods).map PeriodRec.entry)
      = some (some (some "09:05:00")) ∧
    (("09:05:00" : String) == "09:00:00") = false := by
  constructor
  · decide
  · decide

/-- C1 (amended): entry is write-once in the simple ledger — a second
`log_attendance` entry call writes back the unchanged ledger — while
`mark_period_attendance` overwrites the stored entry with the latest
entry-marking call's timestamp (write-latest). -/
theorem C1_entry_once_amended :
    (∀ data roll now1 now2 ts1 ts2,
        ((lookupSR roll data).getD ⟨none, none, none⟩).entry = none →
        ∃ d1, log_attendance data roll AttType.entry now1 ts1 = LogResult.written d1 ∧
          (lookupSR roll d1).map SimpleRec.entry = some (some ts1) ∧
          log_attendance d1 roll AttType.entry now2 ts2 = LogResult.written d1) ∧
    (∀ cfg sd pid e sd', e ≠ "" →
        mark_period_attendance cfg sd pid (some e) none = some sd' →
        (lookupRec pid sd'.periods).map PeriodRec.entry = some (some e)) := by
  constructor
  · intro data roll now1 now2 ts1 ts2 hnone
    refine ⟨setSR roll { (lookupSR roll data).getD ⟨none, none, none⟩ with
      entry := some ts1 } data, ?_, ?_, ?_⟩
    · simp only [log_attendance, is_within_time_window, Bool.true_eq_false, if_false,
        hnone]
    · rw [lookupSR_setSR]
      rfl
    · simp only [log_attendance, is_within_time_window, Bool.true_eq_false, if_false,
        lookupSR_setSR, Option.getD_some]
      rw [setSR_self]
      exact lookupSR_setSR roll _ data
  · intro cfg sd pid e sd' he hcall
    simp only [mark_period_attendance, entryPhase, truthyStr_some_of_ne he] at hcall
    by_cases hc : (({ (lookupRec pid sd.periods).getD defaultPeriodRec with
        entry := some e, present := true } : PeriodRec)).counted
    · rw [if_pos hc] at hcall
      obtain rfl := Option.some.inj hcall.symm
      simp only [exitSave, lookupRec_setPeriod, Option.map_some']
    · rw [if_neg hc] at hcall
      obtain rfl := Option.some.inj hcall.symm
      simp only [exitSave, lookupRec_setPeriod, Option.map_some']

/-- Witness for C1 on concrete ledgers: simple-ledger entry 09:00:00 then
09:05:00 keeps 09:00:00; the period ledger ends up with 09:05:00. -/
theorem C1_entry_once_witness :
    (∃ d1, log_attendance [] "7" AttType.entry 0 "09:00:00" = LogResult.written d1 ∧
      (lookupSR "7" d1).map SimpleRec.entry = some (some "09:00:00") ∧
      log_attendance d1 "7" AttType.entry 0 "09:05:00" = LogResult.written d1) ∧
    (lookupRec 1 c1Day1.periods).map PeriodRec.entry = some (some "09:00:00") :=
  ⟨C1_entry_once_amended.1 [] "7" 0 0 "09:00:00" "09:05:00" (by decide),
   C1_entry_once_amended.2 [] c1Day0 1 "09:00:00" c1Day1 (by decide) (by decide)⟩

/-- C9: the strict time window is short-circuited — `is_within_time_window`
returns true for every wall-clock time, so `log_attendance` never takes the
skip branch: every call either writes the ledger or aborts on an exception,
regardless of the configured `START_TIME`/`END_TIME` window. -/
theorem C9_window_always_open :
    (∀ now, is_within_time_window now = true) ∧
    (∀ data roll type_ now ts,
        (∃ d, log_attendance data roll type_ now ts = LogResult.written d) ∨
        log_attendance data roll type_ now ts = LogResult.failed) := by
  constructor
  · intro now
    rfl
  · intro data roll type_ now ts
    rcases hres : log_attendance data roll type_ now ts with _ | _ | d
    · exfalso
      simp only [log_attendance, is_within_time_window, Bool.true_eq_false, if_false] at hres
      repeat' split at hres
      all_goals exact LogResult.noConfusion hres
    · exact Or.inr rfl
    · exact Or.inl ⟨d, rfl⟩

theorem crossingStep_none_side (L p c : Nat) (hp : p ≠ L) (hc : c ≠ L)
    (h : crossingStep L p c = none) : (p < L ↔ c < L) := by
  by_cases h1 : p < L ∧ L ≤ c
  · simp [crossingStep, h1] at h
  · by_cases h2 : L < p ∧ c ≤ L
    · simp [crossingStep, h1, h2] at h
    · omega

theorem runCrossings_chain (L : Nat) (xs : List Nat) : ∀ prev, prev ≠ L →
    (∀ x ∈ xs, x ≠ L) →
    List.Chain' (fun a b => a ≠ b) (runCrossings L prev xs) ∧
    (∀ ev, (runCrossings L prev xs).head? = some ev →
      (ev = CrossEvent.entry → prev < L) ∧ (ev = CrossEvent.exit → L < prev)) := by
  induction xs with
  | nil =>
    intro prev _ _
    exact ⟨List.chain'_nil, fun ev h => Option.noConfusion h⟩
  | cons c rest ih =>
    intro prev hp hall
    have hc : c ≠ L := hall c (List.mem_cons_self c rest)
    have hrest : ∀ x ∈ rest, x ≠ L := fun x hx => hall x (List.mem_cons_of_mem _ hx)
    obtain ⟨ihc, ihh⟩ := ih c hc hrest
    rcases hstep : crossingStep L prev c with _ | ev
    · have hrun : runCrossings L prev (c :: rest) = runCrossings L c rest := by
        simp only [runCrossings, hstep]
      rw [hrun]
      refine ⟨ihc, ?_⟩
      intro ev hev
      have hside := crossingStep_none_side L prev c hp hc hstep
      have hprop := ihh ev hev
      constructor
      · intro he
        have := hprop.1 he
        omega
      · intro he
        have := hprop.2 he
        omega
    · have hrun : runCrossings L prev (c :: rest) = ev :: runCrossings L c rest := by
        simp only [runCrossings, hstep]
      rw [hrun]
      unfold crossingStep at hstep
      by_cases h1 : prev < L ∧ L ≤ c
      · rw [if_pos h1] at hstep
        obtain rfl := Option.some.inj hstep
        have hcL : L < c := by omega
        constructor
        · rw [List.chain'_cons']
          refine ⟨?_, ihc⟩
          intro b hb
          have hbprop := ihh b hb
          cases b with
          | entry => exact absurd (hbprop.1 rfl) (by omega)
          | exit => exact fun hcontra => CrossEvent.noConfusion hcontra
        · intro ev' hev'
          rw [List.head?_cons] at hev'
          obtain rfl := Option.some.inj hev'
          exact ⟨fun _ => h1.1, fun hcontra => CrossEvent.noConfusion hcontra⟩
      · rw [if_neg h1] at hstep
        by_cases h2 : L < prev ∧ c ≤ L
        · rw [if_pos h2] at hstep
          obtain rfl := Option.some.inj hstep
          have hcL : c < L := by omega
          constructor
          · rw [List.chain'_cons']
            refine ⟨?_, ihc⟩
            intro b hb
            have hbprop := ihh b hb
            cases b with
            | entry => exact fun hcontra => CrossEvent.noConfusion hcontra
            | exit => exact absurd (hbprop.2 rfl) (by omega)
          · intro ev' hev'
            rw [List.head?_cons] at hev'
            obtain rfl := Option.some.inj hev'
            exact ⟨fun hcontra => CrossEvent.noConfusion hcontra, fun _ => h2.1⟩
        · rw [if_neg h2] at hstep
          exact Option.noConfusion hstep

theorem crossingStepEnh_eq (L p c : Nat) :
    crossingStepEnh L p c = (crossingStep L p c).map swapEv := by
  unfold crossingStepEnh crossingStep
  split_ifs <;> first | rfl | omega

theorem runCrossingsEnh_eq (L : Nat) (xs : List Nat) : ∀ prev,
    runCrossingsEnh L prev xs = (runCrossings L prev xs).map swapEv := by
  induction xs with
  | nil => intro prev; rfl
  | cons c rest ih =>
    intro prev
    simp only [runCrossingsEnh, runCrossings, crossingStepEnh_eq]
    rcases hstep : crossingStep L prev c with _ | ev
    · simp [ih c]
    · simp [ih c, swapEv]

theorem chain'_ne_map_swap (l : List CrossEvent)
    (h : List.Chain' (fun a b => a ≠ b) l) :
    List.Chain' (fun a b => a ≠ b) (l.map swapEv) := by
  refine List.chain'_map_of_chain' swapEv ?_ h
  intro a b hab
  cases a <;> cases b <;> simp_all [swapEv]

/-- C3 (amended): as long as no tracked centre position ever lies exactly on
the boundary line, the fired events strictly alternate — no two Entry events
(or two Exit events) without an opposite-direction event between them — both
for the basic tracker's convention and for the enhanced tracker's mirrored
convention.  (When a position equals the line exactly the hysteresis breaks:
see the counterexample.) -/
theorem C3_crossing_amended :
    (∀ lineX xs, (∀ x ∈ xs, x ≠ lineX) →
        List.Chain' (fun a b => a ≠ b) (trackEvents lineX xs)) ∧
    (∀ lineX xs, (∀ x ∈ xs, x ≠ lineX) →
        List.Chain' (fun a b => a ≠ b) (trackEventsEnh lineX xs)) := by
  have hbase : ∀ lineX xs, (∀ x ∈ xs, x ≠ lineX) →
      List.Chain' (fun a b => a ≠ b) (trackEvents lineX xs) := by
    intro L xs hall
    cases xs with
    | nil => exact List.chain'_nil
    | cons c0 rest =>
      exact (runCrossings_chain L rest c0 (hall c0 (List.mem_cons_self c0 rest))
        (fun x hx => hall x (List.mem_cons_of_mem _ hx))).1
  refine ⟨hbase, ?_⟩
  intro L xs hall
  have heq : trackEventsEnh L xs = (trackEvents L xs).map swapEv := by
    cases xs with
    | nil => rfl
    | cons c0 rest => exact runCrossingsEnh_eq L rest c0
  rw [heq]
  exact chain'_ne_map_swap _ (hbase L xs hall)

/-- Witness for C3 on the concrete position sequence 300, 330, 300 with the
line at 320 (one Entry then one Exit). -/
theorem C3_crossing_witness :
    List.Chain' (fun a b => a ≠ b) (trackEvents 320 [300, 330, 300]) :=
  C3_crossing_amended.1 320 [300, 330, 300] (by decide)

/-- C3 counterexample: with the line at 320, the position sequence 300, 320,
300, 320 (landing exactly on the line) fires two Entry events with no Exit
between them — the update `trackers[roll][0] = cx` runs every frame, and the
exit condition `old_x > LINE_X` is strict, so hysteresis fails on the line. -/
theorem C3_counterexample :
    trackEvents 320 [300, 320, 300, 320] = [CrossEvent.entry, CrossEvent.entry] := by
  decide

/-- C4 (amended): the basic pipeline's buffer (deque of max length 5, rule
`len == 5 and all`) is never Verified before 5 hits; the enhanced pipeline's
rule (`len >= 3 and sum of last 3 >= 2`) reports Verified after only 3 hits
despite its 5-slot window, so the N = 5 bound only holds for the basic
pipeline and the enhanced bound is 3. -/
theorem C4_verification_amended :
    (∀ k, k < 5 → basicVerified (afterHits k) = false) ∧
    (∀ k, k < 3 → enhancedVerified (afterHits k) = false) ∧
    enhancedVerified (afterHits 3) = true ∧
    basicVerified (afterHits 5) = true := by
  refine ⟨?_, ?_, by decide, by decide⟩
  · intro k hk
    interval_cases k <;> decide
  · intro k hk
    interval_cases k <;> decide

/-- Witness for C4 at 4 hits (basic) and 2 hits (enhanced). -/
theorem C4_verification_witness :
    basicVerified (afterHits 4) = false ∧ enhancedVerified (afterHits 2) = false :=
  ⟨C4_verification_amended.1 4 (by decide), C4_verification_amended.2.1 2 (by decide)⟩

/-- C4 counterexample: in the enhanced pipeline, an identity with only 3
observed hits — fewer than the window size N = 5 — is already reported
Verified (and crossing detection and ledger writes are enabled for it). -/
theorem C4_counterexample :
    enhancedVerified (afterHits 3) = true ∧ (afterHits 3).length = 3 ∧
    Nat.blt 3 5 = true := by
  decide

theorem summInv_init (students : Nat) (cfg : List Period) :
    summInv students (initSummary students cfg) := by
  intro kv hkv
  rw [initSummary, List.mem_filterMap] at hkv
  obtain ⟨p, _, hp⟩ := hkv
  by_cases hcond : p.is_active && !p.is_break
  · rw [if_pos hcond] at hp
    obtain rfl := Option.some.inj hp
    exact ⟨rfl, rfl⟩
  · rw [if_neg hcond] at hp
    exact Option.noConfusion hp

theorem summInv_bump (students pid : Nat) (l : List (Nat × PSummary))
    (h : summInv students l) : summInv students (bumpPeriod pid l) := by
  induction l with
  | nil => intro kv hkv; exact absurd hkv (List.not_mem_nil kv)
  | cons kv0 rest ih =>
    intro kv hkv
    obtain ⟨k0, s0⟩ := kv0
    rw [bumpPeriod] at hkv
    by_cases hk : k0 = pid
    · rw [if_pos hk] at hkv
      rcases List.mem_cons.mp hkv with rfl | hmem
      · exact h (k0, s0) (List.mem_cons_self _ _)
      · exact h kv (List.mem_cons_of_mem _ hmem)
    · rw [if_neg hk] at hkv
      rcases List.mem_cons.mp hkv with rfl | hmem
      · exact h (k0, s0) (List.mem_cons_self _ _)
      · exact ih (fun kv' hkv' => h kv' (List.mem_cons_of_mem _ hkv')) kv hmem

theorem summInv_countStudent (students : Nat) (prs : List (Nat × PeriodRec)) :
    ∀ acc : List (Nat × PSummary) × Nat, summInv students acc.1 →
      summInv students (countStudent acc prs).1 := by
  induction prs with
  | nil => intro acc h; exact h
  | cons pr rest ih =>
    intro acc h
    obtain ⟨summ, tot⟩ := acc
    obtain ⟨pid, pd⟩ := pr
    rw [countStudent]
    by_cases hcond : hasKey pid summ && pd.present
    · rw [if_pos hcond]
      exact ih (bumpPeriod pid summ, tot + 1) (summInv_bump students pid summ h)
    · rw [if_neg hcond]
      exact ih (summ, tot) h

theorem summInv_countAll (students : Nat) (dd : List (String × StudentDay)) :
    ∀ acc : List (Nat × PSummary) × Nat, summInv students acc.1 →
      summInv students (countAll acc dd).1 := by
  induction dd with
  | nil => intro acc h; exact h
  | cons sd rest ih =>
    intro acc h
    rw [countAll]
    exact ih _ (summInv_countStudent students sd.2.periods acc h)

theorem countStudent_nil (t : Nat) (prs : List (Nat × PeriodRec)) :
    countStudent ([], t) prs = ([], t) := by
  induction prs with
  | nil => rfl
  | cons pr rest ih =>
    obtain ⟨pid, pd⟩ := pr
    simp only [countStudent, hasKey, List.any_nil, Bool.false_and, Bool.false_eq_true,
      if_false]
    exact ih

theorem countAll_nil (t : Nat) (dd : List (String × StudentDay)) :
    countAll ([], t) dd = ([], t) := by
  induction dd with
  | nil => rfl
  | cons sd rest ih =>
    rw [countAll, countStudent_nil]
    exact ih

theorem initSummary_empty (students : Nat) (cfg : List Period)
    (h : ∀ p ∈ cfg, p.is_active = false ∨ p.is_break = true) :
    initSummary students cfg = [] := by
  rw [initSummary, List.filterMap_eq_nil_iff]
  intro p hp
  rcases h p hp with ha | hb
  · simp [ha]
  · simp [hb]

/-- C8: the daily summary never divides by zero — when the student count is
zero or no period is active and non-break, the overall attendance
percentage and every per-period percentage are 0 rather than an error. -/
theorem C8_summary_no_div_zero :
    ∀ (students : Nat) (cfg : List Period)
      (dayData : Option (List (String × StudentDay))),
      (students = 0 ∨ ∀ p ∈ cfg, p.is_active = false ∨ p.is_break = true) →
      (get_daily_period_summary students cfg dayData).overall_attendance = 0 ∧
      ∀ pid s, (pid, s) ∈ (get_daily_period_summary students cfg dayData).period_summary →
        s.attendance_percentage = 0 := by
  intro students cfg dayData hzero
  cases dayData with
  | none =>
    refine ⟨rfl, ?_⟩
    intro pid s hs
    exact absurd hs (List.not_mem_nil _)
  | some dd =>
    rcases hzero with hst | hper
    · subst hst
      constructor
      · simp [get_daily_period_summary]
      · intro pid s hs
        simp only [get_daily_period_summary] at hs
        rw [finalizePercents, List.mem_map] at hs
        obtain ⟨kv, hkv, hmap⟩ := hs
        have hinv := summInv_countAll 0 dd (initSummary 0 cfg, 0)
          (summInv_init 0 cfg) kv hkv
        rw [if_neg (by omega : ¬ 0 < kv.2.total_students)] at hmap
        have hs2 : kv.2 = s := congrArg Prod.snd hmap
        exact hs2 ▸ hinv.2
    · have hinit : initSummary students cfg = [] := initSummary_empty students cfg hper
      constructor
      · simp [get_daily_period_summary, hinit, countAll_nil]
      · intro pid s hs
        simp only [get_daily_period_summary, hinit, countAll_nil] at hs
        exact absurd hs (List.not_mem_nil _)

/-- Witness for C8 at a concrete zero-student day with one active period and
one present record. -/
theorem C8_summary_witness :
    (get_daily_period_summary 0 [scenP1] (some [("7", c1Day1)])).overall_attendance = 0 ∧
    ∀ pid s,
      (pid, s) ∈ (get_daily_period_summary 0 [scenP1] (some [("7", c1Day1)])).period_summary →
      s.attendance_percentage = 0 :=
  C8_summary_no_div_zero 0 [scenP1] (some [("7", c1Day1)]) (Or.inl rfl)

end SmartoAttend
